import Mathlib

/-!
# Verification of the Caterpillar conversion pipeline

Shallow embedding of `src/caterpillar.py`, the Chrome App → progressive web
app converter.  Pure functions of the source are translated to Lean
functions; the file tree mutated by the pipeline is modelled as an explicit
list of relative file paths threaded through the stages; Python exceptions
are modelled with `Except` / explicit outcome constructors.

Modules imported by the source but not part of this repository
(`chrome_app.apis`, `chrome_app.manifest`, `polyfill_manifest`,
`surrogateescape`) are modelled from the spec where they matter and noted
as such on each definition.
-/

namespace Caterpillar

/-- Constant `POLYFILLS` of the source: Chrome APIs with polyfills available. -/
def POLYFILLS : List String := ["notifications", "power", "runtime", "storage", "tts"]

/-- Modelled from the spec: `chrome_app.manifest.MANIFEST_FILENAME` (module
`chrome_app.manifest` is not among this repository's sources); the Chrome App
manifest filename. -/
def CHROME_APP_MANIFEST_FILENAME : String := "manifest.json"

/-- Constant `WEB_MANIFEST_FILENAME` of the source. -/
def WEB_MANIFEST_FILENAME : String := "manifest.webmanifest"

/-- Constant `REGISTER_SCRIPT_NAME` of the source. -/
def REGISTER_SCRIPT_NAME : String := "register_sw.js"

/-- Constant `SW_SCRIPT_NAME` of the source. -/
def SW_SCRIPT_NAME : String := "sw.js"

/-- Constant `SW_STATIC_SCRIPT_NAME` of the source. -/
def SW_STATIC_SCRIPT_NAME : String := "sw_static.js"

/-- Constant `INFO_SCRIPT_NAME` of the source. -/
def INFO_SCRIPT_NAME : String := "app.info.js"

/-- Model of `os.path.join` on two relative path components.  (The source only joins
relative components; the absolute-path override of `os.path.join` is not
modelled.) -/
def pJoin (a b : String) : String := if a = "" then b else a ++ "/" ++ b

/-- A dependency record, as read from a polyfill manifest:
`{name, path, manager}`. -/
structure Dependency where
  name : String
  path : String
  manager : String
deriving DecidableEq, Repr

/-- A polyfill manifest: per-API status and dependency list
(`polyfill_manifest.load_many` result entries). -/
structure PolyfillManifestData where
  status : String
  dependencies : List Dependency
deriving DecidableEq, Repr

/-- Modelled from the spec: `polyfill_manifest.default` (module
`polyfill_manifest` is not among this repository's sources); a default
descriptor with status `none` and no dependencies. -/
def polyfill_manifest_default (_api : String) : PolyfillManifestData :=
  { status := "none", dependencies := [] }

/-- Constant `DEPENDENCY_MANAGER_INSTALL_FOLDER` of the source, as a partial lookup:
`none` models the `KeyError` a Python dict raises on an unknown key. -/
def DEPENDENCY_MANAGER_INSTALL_FOLDER (manager : String) : Option String :=
  if manager = "bower" then some "bower_components"
  else if manager = "npm" then some "node_modules"
  else none

/-- Function `polyfill_filename` of the source. -/
def polyfill_filename (api : String) : String := api ++ ".polyfill.js"

/-- Function `polyfill_paths` of the source: `polyfills/<api>.polyfill.js` per API. -/
def polyfill_paths (apis : List String) : List String :=
  apis.map (fun api => pJoin "polyfills" (polyfill_filename api))

/-- The APIs of `apis` kept by the `api in POLYFILLS` branch of the
partition loop in `convert_app` (lines 622-628). -/
def polyfillable_of (apis : List String) : List String :=
  apis.filter (fun a => a ∈ POLYFILLS)

/-- The APIs of `apis` kept by the `else` branch of the partition loop in
`convert_app` (lines 622-628). -/
def not_polyfillable_of (apis : List String) : List String :=
  apis.filter (fun a => a ∉ POLYFILLS)

/-- The status-classification loop of `convert_app` (lines 747-752):
`status` starts `total` and flips to `partial` (with a `break`) at the first
manifest whose status is not `total` for an API outside
`{app.window, app.runtime}`. -/
def classifyStatus : List (String × PolyfillManifestData) → String
  | [] => "total"
  | (api, manifest) :: rest =>
    if manifest.status ≠ "total" ∧ api ∉ (["app.window", "app.runtime"] : List String) then
      "partial"
    else classifyStatus rest

/-- The manifest map over which `convert_app` classifies the status:
loaded manifests for the polyfillable APIs (line 637) plus default manifests
for the rest (lines 733-734). -/
def resolved_manifests (apis : List String) (registry : String → PolyfillManifestData) :
    List (String × PolyfillManifestData) :=
  (polyfillable_of apis).map (fun a => (a, registry a)) ++
    (not_polyfillable_of apis).map (fun a => (a, polyfill_manifest_default a))

/-- The descriptor a detected API resolves to: the registry entry when the
API is polyfillable, the default descriptor otherwise. -/
def resolved_descriptor (registry : String → PolyfillManifestData) (api : String) :
    PolyfillManifestData :=
  if api ∈ POLYFILLS then registry api else polyfill_manifest_default api

/-- Lexicographic comparison of character lists, modelling the string order
used by Python's `list.sort` on the cached file paths. -/
def lexLe : List Char → List Char → Bool
  | [], _ => true
  | _ :: _, [] => false
  | a :: as, b :: bs =>
    if a < b then true
    else if b < a then false
    else lexLe as bs

/-- The string order used when the service-worker generator sorts the cached
file list (`all_filepaths.sort()`). -/
def strLe (a b : String) : Prop := lexLe a.data b.data = true

instance : DecidableRel strLe := fun a b =>
  inferInstanceAs (Decidable (lexLe a.data b.data = true))

theorem lexLe_total : ∀ as bs : List Char, lexLe as bs = true ∨ lexLe bs as = true := by
  intro as
  induction as with
  | nil => intro bs; left; rfl
  | cons a as ih =>
    intro bs
    cases bs with
    | nil => right; rfl
    | cons b bs =>
      by_cases hab : a < b
      · left; simp [lexLe, hab]
      · by_cases hba : b < a
        · right; simp [lexLe, hba]
        · rcases ih bs with h | h
          · left; simp [lexLe, hab, hba, h]
          · right; simp [lexLe, hab, hba, h]

theorem lexLe_trans : ∀ as bs cs : List Char,
    lexLe as bs = true → lexLe bs cs = true → lexLe as cs = true := by
  intro as
  induction as with
  | nil => intro bs cs _ _; rfl
  | cons a as ih =>
    intro bs cs h1 h2
    cases bs with
    | nil => simp [lexLe] at h1
    | cons b bs =>
      cases cs with
      | nil => simp [lexLe] at h2
      | cons c cs =>
        by_cases hab : a < b
        · by_cases hbc : b < c
          · have hac : a < c := lt_trans hab hbc
            simp [lexLe, hac]
          · by_cases hcb : c < b
            · simp [lexLe, hbc, hcb] at h2
            · have hbc' : b = c := le_antisymm (not_lt.mp hcb) (not_lt.mp hbc)
              subst hbc'
              simp [lexLe, hab]
        · by_cases hba : b < a
          · simp [lexLe, hab, hba] at h1
          · have hab' : a = b := le_antisymm (not_lt.mp hba) (not_lt.mp hab)
            subst hab'
            simp only [lexLe, if_neg (lt_irrefl a)] at h1
            by_cases hac : a < c
            · simp [lexLe, hac]
            · by_cases hca : c < a
              · simp [lexLe, hac, hca] at h2
              · simp only [lexLe, if_neg hac, if_neg hca] at h2 ⊢
                exact ih bs cs h1 h2

instance : IsTotal String strLe := ⟨fun a b => lexLe_total a.data b.data⟩

instance : IsTrans String strLe := ⟨fun a b c => lexLe_trans a.data b.data c.data⟩

/-! ## Script annotation (`insert_todos_into_file`, lines 318-347) -/

/-- Helper for `apiMemberUsed`: after the literal `chrome.`, collect the
dotted member name and succeed when a `(` follows it. -/
def readMember (acc : List Char) : List Char → Option String
  | [] => none
  | c :: rest =>
    if c.isAlpha ∨ c.isDigit ∨ c = '.' ∨ c = '_' then readMember (acc ++ [c]) rest
    else if c = '(' ∧ acc ≠ [] then some (String.mk acc) else none

/-- Helper for `apiMemberUsed`: scan for an occurrence of `chrome.` followed
by a member call. -/
def scanChrome : List Char → Option String
  | [] => none
  | c :: rest =>
    if List.isPrefixOf "chrome.".data (c :: rest) then
      readMember [] (List.drop 7 (c :: rest))
    else scanChrome rest

/-- Modelled from the spec: `chrome_app.apis.api_member_used` (module
`chrome_app.apis` is not among this repository's sources).  Per the spec the
scan is per-line lexical matching of a call pattern `namespace.member(...)`
on the `chrome` namespace, matching inside comments and strings too. -/
def apiMemberUsed (line : String) : Option String := scanChrome line.data

/-- Model of `line.endswith` of a carriage-return + linefeed terminator. -/
def endsWithCRLF (line : String) : Bool :=
  match line.data.reverse with
  | '\n' :: '\r' :: _ => true
  | _ => false

/-- The TODO comment `insert_todos_into_file` builds for a matched line
(lines 335-338), preserving the end-of-line convention of the line. -/
def todoFor (api : String) (line : String) : String :=
  "// TODO(Caterpillar): Check usage of " ++ api ++ "." ++
    (if endsWithCRLF line then "\r\n" else "\n")

/-- Model of `insert_todos_into_file` (lines 318-347) on the file contents: the file
is its list of lines (each line carrying its terminator, as Python file
iteration yields them); for each line matched by the API matcher one TODO
comment is emitted immediately before it.  The matcher argument stands for
`chrome_app.apis.api_member_used`. -/
def insert_todos_into_file (matcher : String → Option String) :
    List String → List String
  | [] => []
  | line :: rest =>
    match matcher line with
    | some api => todoFor api line :: line :: insert_todos_into_file matcher rest
    | none => line :: insert_todos_into_file matcher rest

/-! ## Markup script-tag injection (`inject_script_tags`, lines 243-278) -/

/-- A node of the parsed markup document, as far as script ordering is
concerned: a script element (with its `src`) or any other content. -/
inductive Node where
  | script : String → Node
  | other : String → Node
deriving DecidableEq, Repr

/-- Whether a node is a script element. -/
def Node.isScript : Node → Bool
  | .script _ => true
  | .other _ => false

/-- The insertion loop of `inject_script_tags` (lines 269-277): the paths
are processed in reverse order, each new script element inserted immediately
before the running first-script pointer, which then becomes the pointer.
`post` is the document suffix starting at the pointer (empty when the
document had no script element, in which case the loop appends to the
body). -/
def injectLoop (mkSrc : String → String) : List String → List Node → List Node
  | [], post => post
  | p :: ps, post => injectLoop mkSrc ps (Node.script (mkSrc p) :: post)

/-- Model of `inject_script_tags` (lines 243-278): no-op on an empty required list;
otherwise the document is split at its first script element and the loop
inserts one script element per required path, in reverse order, before the
running pointer.  The `src` of each injected element is
`os.path.join(root_path, boilerplate_dir, script_path)`. -/
def inject_script_tags (required_js_paths : List String) (root_path boilerplate_dir : String)
    (doc : List Node) : List Node :=
  if required_js_paths = [] then doc
  else
    doc.takeWhile (fun n => ¬ n.isScript) ++
      injectLoop (fun p => pJoin (pJoin root_path boilerplate_dir) p)
        required_js_paths.reverse (doc.dropWhile (fun n => ¬ n.isScript))

/-- The `src` attributes of the script elements of a document, in document
order. -/
def scriptSrcs (doc : List Node) : List String :=
  doc.filterMap (fun n => match n with | .script s => some s | .other _ => none)

/-! ## Web manifest generation (`generate_web_manifest`, lines 192-228) -/

/-- The Chrome App manifest fields the converter reads.  `name` is required
(`manifest['name']` would raise otherwise, and `convert_app` verifies it
before this point); the optional fields model `manifest.get`.  `icons` maps
icon sizes to paths.  `otherFields` stands for every manifest member with no
web-manifest analogue (the source reads none of them here). -/
structure ChromeAppManifest where
  name : String
  short_name : Option String
  default_locale : Option String
  icons : List (String × String)
  description : Option String
  author : Option String
  app_background_scripts : List String
  otherFields : List (String × String)
deriving DecidableEq, Repr

/-- One entry of the web manifest's `icons` list: `{src, sizes}`. -/
structure WebIcon where
  src : String
  sizes : String
deriving DecidableEq, Repr

/-- The synthesized web manifest (the keys written by
`generate_web_manifest`). -/
structure WebManifest where
  name : String
  short_name : String
  lang : String
  splash_screens : List WebIcon
  display : String
  orientation : String
  start_url : String
  theme_color : String
  background_color : String
  related_applications : List String
  prefer_related_applications : Bool
  icons : List WebIcon
deriving DecidableEq, Repr

/-- Model of `generate_web_manifest` (lines 192-228). -/
def generate_web_manifest (manifest : ChromeAppManifest) (start_url : String) :
    WebManifest where
  name := manifest.name
  short_name := manifest.short_name.getD manifest.name
  lang := manifest.default_locale.getD "en"
  splash_screens := []
  display := "minimal-ui"
  orientation := "any"
  start_url := start_url
  theme_color := "white"
  background_color := "white"
  related_applications := []
  prefer_related_applications := false
  icons := manifest.icons.map (fun sp => { src := sp.2, sizes := sp.1 ++ "x" ++ sp.1 })

/-! ## The output file tree

The pipeline mutates a single output directory.  We model that directory as
the list of relative paths of the files it holds (`os.walk` enumerates
files; empty directories contribute nothing).  Writing a file is `addFile`:
creating it when absent, overwriting (no new path) when present. -/

/-- Write a file into the tree: a new path is appended, an existing path is
overwritten in place. -/
def addFile (tree : List String) (p : String) : List String :=
  if p ∈ tree then tree else tree ++ [p]

/-- Write several files into the tree, in order. -/
def addFiles (tree : List String) (ps : List String) : List String :=
  ps.foldl addFile tree

/-- The world visible to `convert_app`: the input Chrome App directory and
the output directory (`none` when the output directory does not exist). -/
structure World where
  inputFiles : List String
  outputFiles : Option (List String)
deriving DecidableEq, Repr

/-- The configuration fields `convert_app` reads. -/
structure Config where
  boilerplate_dir : String
  report_dir : String
  start_url : String
deriving DecidableEq, Repr

/-- The outcome of one external install invocation: the captured standard
output, the process exit code, and the files the package manager
materialized into the output tree. -/
structure InstallRun where
  stdout : String
  exitCode : Int
  added : List String
deriving DecidableEq, Repr

/-- The collaborators of `convert_app` that live outside this repository's
sources, as inputs to the model: the API scan result
(`chrome_app.apis.app_apis`), the polyfill manifest registry
(`polyfill_manifest.load_many`), the verdict of
`chrome_app.manifest.get/localize/verify`, and the external package
managers. -/
structure Env where
  apis : List String
  registry : String → PolyfillManifestData
  manifestOk : Bool
  run : Dependency → InstallRun

/-- How `convert_app` ends: a caught fatal error (`logging.error` then
`return`), an uncaught Python exception, or completion carrying the
conversion status, the cached-file list embedded in the generated service
worker, and the captured warnings. -/
inductive ConvResult where
  | abortedLogged : String → ConvResult
  | uncaught : String → ConvResult
  | completed : String → List String → List String → ConvResult
deriving DecidableEq, Repr

/-- Model of `setup_output_dir` (lines 115-161): with `force` the existing output
tree is removed first; otherwise an existing output directory raises
`OSError` before anything is copied.  On success the input tree is copied
across (the boilerplate, polyfill and report directories are created empty
and so hold no files yet). -/
def setup_output_dir (world : World) (force : Bool) : Except String (List String) :=
  if force = false ∧ world.outputFiles.isSome then
    .error "Output directory already exists."
  else
    .ok world.inputFiles

/-- Model of `cleanup_output_dir` (lines 164-172): a bare `os.remove` of the Chrome
App manifest, which raises `OSError` when the file is absent. -/
def cleanup_output_dir (tree : List String) : Except String (List String) :=
  if CHROME_APP_MANIFEST_FILENAME ∈ tree then
    .ok (tree.erase CHROME_APP_MANIFEST_FILENAME)
  else
    .error "OSError"

/-- Model of `copy_static_code` (lines 175-189): copy each static script to
`<boilerplate_dir>/<path>` inside the output tree. -/
def copy_static_code (static_code_paths : List String) (tree : List String)
    (boilerplate_dir : String) : List String :=
  addFiles tree (static_code_paths.map (fun p => pJoin boilerplate_dir p))

/-- Model of `add_app_info` (lines 456-471): writes the app info script at the output
root. -/
def add_app_info (tree : List String) : List String :=
  addFile tree INFO_SCRIPT_NAME

/-- Model of `install_dependency` (lines 480-508): the subprocess runs (its files
land in the tree whatever happens), then empty standard output — and only
empty standard output; the exit code is never consulted — raises
`InstallationError`, returned here as the second component. -/
def install_dependency (r : InstallRun) (tree : List String) :
    List String × Option String :=
  (addFiles tree r.added, if r.stdout = "" then some "InstallationError" else none)

/-- The warning `install_dependencies` logs for one failed install
(lines 535-537). -/
def installFailWarning (d : Dependency) : String :=
  "Failed to install dependency `" ++ d.name ++ "` with " ++ d.manager

/-- The `ValueError` message for an unrecognized manager (lines 532-533). -/
def invalidManagerMsg (manager : String) : String :=
  "Invalid dependency: No such manager `" ++ manager ++ "`."

/-- Model of `install_dependencies` (lines 511-537): each dependency installs in
turn; an `InstallationError` is caught and logged as a warning and the loop
continues; an unrecognized manager raises `ValueError`, stopping the loop.
Returns the mutated tree, the warnings, and the fatal `ValueError` message
if one was raised. -/
def install_dependencies (run : Dependency → InstallRun) :
    List Dependency → List String → List String × List String × Option String
  | [], tree => (tree, [], none)
  | d :: ds, tree =>
    if d.manager = "bower" ∨ d.manager = "npm" then
      match install_dependency (run d) tree with
      | (tree1, failed) =>
        match install_dependencies run ds tree1 with
        | (tree2, warns, fatal) =>
          match failed with
          | some _ => (tree2, installFailWarning d :: warns, fatal)
          | none => (tree2, warns, fatal)
    else
      (tree, [], some (invalidManagerMsg d.manager))

/-- Model of `generate_service_worker` (lines 367-414), restricted to the cached-file
list it embeds: every file currently under the output tree, by sorted
relative path.  (The random cache version and the import statements the
script also renders are not modelled.) -/
def generate_service_worker (tree : List String) : List String :=
  List.insertionSort strLe tree

/-- Model of `add_service_worker` (lines 429-453): first copies the registration and
static service-worker scripts into the boilerplate directory so they are
cached, then generates the service worker from the tree, and only then
writes `sw.js` at the output root.  Returns the embedded cached list and
the new tree. -/
def add_service_worker (tree : List String) (boilerplate_dir : String) :
    List String × List String :=
  let tree1 := addFile tree (pJoin boilerplate_dir REGISTER_SCRIPT_NAME)
  let tree2 := addFile tree1 (pJoin boilerplate_dir SW_STATIC_SCRIPT_NAME)
  let cached := generate_service_worker tree2
  (cached, addFile tree2 SW_SCRIPT_NAME)

/-- The dependency list `convert_app` collects from the polyfill manifests
of the polyfillable APIs (lines 637-640). -/
def convert_dependencies (env : Env) : List Dependency :=
  (polyfillable_of env.apis).flatMap (fun a => (env.registry a).dependencies)

/-- The `required_dependency_paths` loop of `convert_app` (lines 651-658):
`os.path.join('..', DEPENDENCY_MANAGER_INSTALL_FOLDER[manager], name, path)`
per dependency; the dict lookup raises `KeyError` (modelled by `none`) on an
unrecognized manager. -/
def required_dependency_paths? : List Dependency → Option (List String)
  | [] => some []
  | d :: ds =>
    match DEPENDENCY_MANAGER_INSTALL_FOLDER d.manager with
    | none => none
    | some folder =>
      (required_dependency_paths? ds).map
        (fun ps => pJoin (pJoin (pJoin ".." folder) d.name) d.path :: ps)

/-- The warning logged at line 631 listing the APIs that could not be
polyfilled. -/
def notPolyfillableWarning (not_polyfillable : List String) : String :=
  "Could not polyfill Chrome APIs: " ++ String.intercalate ", " not_polyfillable

/-- Model of `convert_app` (lines 597-760), on the parts of the state the claims are
about: the file tree of the output directory, the warning list, the status
classification and the cached-file list of the generated service worker.
Stage order mirrors the source: stage the output tree; scan and partition
the APIs; load the polyfill manifests and collect dependencies; build the
dependency paths (a `KeyError` here is uncaught); verify the Chrome App
manifest (a `ValueError` here is caught and logged); write the web manifest
and the app info script; remove the Chrome App manifest (an `OSError` here
is uncaught); edit the code (which rewrites file contents but leaves the
set of paths unchanged); copy the static and polyfill scripts; install the
dependencies (`InstallationError` per dependency is a warning,
`ValueError` is caught and logged); add the service worker; classify the
status.  (Report generation writes only under the report directory and is
not modelled.) -/
def convert_app (env : Env) (world : World) (config : Config) (force : Bool) :
    World × ConvResult :=
  match setup_output_dir world force with
  | .error msg => (world, .abortedLogged msg)
  | .ok staged =>
    let polyfillable := polyfillable_of env.apis
    let not_polyfillable := not_polyfillable_of env.apis
    let dependencies := convert_dependencies env
    match required_dependency_paths? dependencies with
    | none => ({ world with outputFiles := some staged }, .uncaught "KeyError")
    | some _required_dependency_paths =>
      if env.manifestOk = false then
        ({ world with outputFiles := some staged },
          .abortedLogged "Invalid Chrome App manifest.")
      else
        let tree := addFile staged WEB_MANIFEST_FILENAME
        let tree := add_app_info tree
        match cleanup_output_dir tree with
        | .error e => ({ world with outputFiles := some tree }, .uncaught e)
        | .ok tree =>
          -- edit_code (lines 557-591) rewrites scripts and markup in place;
          -- no path is created or removed.
          let required_static_paths :=
            ["caterpillar.js", REGISTER_SCRIPT_NAME, SW_STATIC_SCRIPT_NAME] ++
              polyfill_paths polyfillable
          let tree := copy_static_code required_static_paths tree config.boilerplate_dir
          match install_dependencies env.run dependencies tree with
          | (tree, _warns, some msg) =>
            ({ world with outputFiles := some tree }, .abortedLogged msg)
          | (tree, warns, none) =>
            match add_service_worker tree config.boilerplate_dir with
            | (cached, tree) =>
              let status :=
                classifyStatus (resolved_manifests env.apis env.registry)
              ({ world with outputFiles := some tree },
                .completed status cached (notPolyfillableWarning not_polyfillable :: warns))

/-! ## Helper lemmas about the file-tree primitives -/

theorem mem_addFile {p q : String} {t : List String} :
    p ∈ addFile t q ↔ p ∈ t ∨ p = q := by
  unfold addFile
  by_cases h : q ∈ t
  · simp only [if_pos h]
    constructor
    · exact Or.inl
    · rintro (hp | rfl) <;> [exact hp; exact h]
  · simp [if_neg h]

theorem nodup_addFile {q : String} {t : List String} (h : t.Nodup) :
    (addFile t q).Nodup := by
  unfold addFile
  by_cases hq : q ∈ t
  · simpa [if_pos hq]
  · rw [if_neg hq, List.nodup_append]
    exact ⟨h, List.nodup_singleton q, List.disjoint_singleton.mpr hq⟩

theorem mem_addFiles {p : String} : ∀ {ps : List String} {t : List String},
    p ∈ addFiles t ps ↔ p ∈ t ∨ p ∈ ps := by
  intro ps
  induction ps with
  | nil => intro t; simp [addFiles]
  | cons q ps ih =>
    intro t
    show p ∈ addFiles (addFile t q) ps ↔ _
    rw [ih, mem_addFile]
    simp only [List.mem_cons]
    tauto

theorem nodup_addFiles : ∀ {ps : List String} {t : List String},
    t.Nodup → (addFiles t ps).Nodup := by
  intro ps
  induction ps with
  | nil => intro t h; exact h
  | cons q ps ih => intro t h; exact ih (nodup_addFile h)

/-! ## C9: web manifest generation -/

/-- C9: web-manifest generation is a pure function of the source manifest
and the caller-supplied start URL: the result's `name` is the source name,
`short_name` the source short name defaulting to the name, `lang` the
source default locale defaulting to the fixed `"en"`, `start_url` the
supplied URL, one `{src, sizes = "NxN"}` icon entry per source icon-size
mapping, empty placeholders (`splash_screens`, `related_applications`) for
fields with no source analogue, and every source field with no analogue
(description, author, background scripts, anything else) is dropped: the
result does not depend on them. -/
theorem generate_web_manifest_fields (m : ChromeAppManifest) (s : String) :
    (generate_web_manifest m s).name = m.name ∧
    (generate_web_manifest m s).short_name = m.short_name.getD m.name ∧
    (generate_web_manifest m s).lang = m.default_locale.getD "en" ∧
    (generate_web_manifest m s).start_url = s ∧
    ((generate_web_manifest m s).icons.length = m.icons.length ∧
      ∀ i : Fin m.icons.length,
        (generate_web_manifest m s).icons.get ⟨i, by simp [generate_web_manifest]⟩ =
          { src := (m.icons.get i).2,
            sizes := (m.icons.get i).1 ++ "x" ++ (m.icons.get i).1 }) ∧
    (generate_web_manifest m s).splash_screens = [] ∧
    (generate_web_manifest m s).related_applications = [] ∧
    (generate_web_manifest m s).prefer_related_applications = false ∧
    (∀ o d a bg,
      generate_web_manifest
        { m with otherFields := o, description := d, author := a,
                 app_background_scripts := bg } s = generate_web_manifest m s) := by
  refine ⟨rfl, rfl, rfl, rfl, ⟨by simp [generate_web_manifest], ?_⟩, rfl, rfl, rfl,
    fun o d a bg => rfl⟩
  intro i
  simp [generate_web_manifest]

/-! ## C3: script-tag injection order -/

theorem injectLoop_eq (mk : String → String) :
    ∀ (ps : List String) (post : List Node),
      injectLoop mk ps post = ps.reverse.map (fun p => Node.script (mk p)) ++ post := by
  intro ps
  induction ps with
  | nil => intro post; rfl
  | cons p ps ih =>
    intro post
    show injectLoop mk ps (Node.script (mk p) :: post) = _
    rw [ih]
    simp

theorem scriptSrcs_append (l₁ l₂ : List Node) :
    scriptSrcs (l₁ ++ l₂) = scriptSrcs l₁ ++ scriptSrcs l₂ :=
  List.filterMap_append l₁ l₂ _

theorem scriptSrcs_of_no_scripts {l : List Node} (h : ∀ n ∈ l, n.isScript = false) :
    scriptSrcs l = [] := by
  rw [scriptSrcs, List.filterMap_eq_nil_iff]
  intro n hn
  cases n with
  | script s => exact absurd (h _ hn) (by simp [Node.isScript])
  | other s => rfl

/-- C3: for every non-empty required-script-path list and every markup
document, after injection the script elements of the document are, in
order, exactly one script per required path in required-path order (each
with `src` `os.path.join(root_path, boilerplate_dir, path)`), followed by
the originally-authored script elements in their original order — so every
injected script precedes every original one. -/
theorem inject_script_tags_order (required : List String) (root bp : String)
    (doc : List Node) (h : required ≠ []) :
    scriptSrcs (inject_script_tags required root bp doc) =
      required.map (fun p => pJoin (pJoin root bp) p) ++ scriptSrcs doc := by
  unfold inject_script_tags
  rw [if_neg h, injectLoop_eq, List.reverse_reverse]
  have hpre : scriptSrcs (doc.takeWhile (fun n => ¬ n.isScript)) = [] := by
    refine scriptSrcs_of_no_scripts (fun n hn => ?_)
    have := List.mem_takeWhile_imp hn
    simpa using this
  have hsplit : doc.takeWhile (fun n => ¬ n.isScript) ++
      doc.dropWhile (fun n => ¬ n.isScript) = doc := List.takeWhile_append_dropWhile _ _
  have hdoc : scriptSrcs doc =
      scriptSrcs (doc.dropWhile (fun n => ¬ n.isScript)) := by
    conv_lhs => rw [← hsplit]
    rw [scriptSrcs_append, hpre, List.nil_append]
  rw [scriptSrcs_append, hpre, List.nil_append, scriptSrcs_append, hdoc]
  congr 1
  rw [scriptSrcs, List.filterMap_map]
  show List.filterMap (some ∘ fun p => pJoin (pJoin root bp) p) required = _
  exact congrFun (List.filterMap_eq_map _) required

/-- Witness for C3 at the spec's own example: required paths `[a, b, c]`
and a document with one authored script `S`. -/
theorem inject_script_tags_order_witness :
    (["a", "b", "c"] : List String) ≠ [] ∧
    scriptSrcs (inject_script_tags ["a", "b", "c"] "." "bp"
        [Node.other "div", Node.script "S"]) =
      (["a", "b", "c"] : List String).map (fun p => pJoin (pJoin "." "bp") p) ++
        scriptSrcs [Node.other "div", Node.script "S"] :=
  ⟨by decide, inject_script_tags_order ["a", "b", "c"] "." "bp"
    [Node.other "div", Node.script "S"] (by decide)⟩

/-! ## C4: status classification -/

theorem classifyStatus_eq_total_iff (l : List (String × PolyfillManifestData)) :
    classifyStatus l = "total" ↔
      ∀ am ∈ l, am.2.status = "total" ∨
        am.1 ∈ (["app.window", "app.runtime"] : List String) := by
  induction l with
  | nil => simp [classifyStatus]
  | cons am rest ih =>
    obtain ⟨api, manifest⟩ := am
    by_cases hbad : manifest.status ≠ "total" ∧
        api ∉ (["app.window", "app.runtime"] : List String)
    · rw [classifyStatus, if_pos hbad]
      constructor
      · intro hcontr; exact absurd hcontr (by decide)
      · intro hall
        rcases hall (api, manifest) (List.mem_cons_self _ _) with h | h
        · exact absurd h hbad.1
        · exact absurd h hbad.2
    · rw [classifyStatus, if_neg hbad, ih]
      constructor
      · intro hall am' ham'
        rcases List.mem_cons.mp ham' with rfl | hmem
        · by_cases hs : manifest.status = "total"
          · exact Or.inl hs
          · exact Or.inr (by_contra fun hx => hbad ⟨hs, hx⟩)
        · exact hall am' hmem
      · intro hall am' ham'
        exact hall am' (List.mem_cons_of_mem _ ham')

/-- C4: the status classification of `convert_app` is `total` iff every
detected API outside the exempted set `{app.window, app.runtime}` resolves
to a polyfill descriptor with status `total`, and `partial` otherwise; in
particular, when the only detected APIs are `app.window` and `app.runtime`
(neither of which has a registered polyfill) the status is `total`. -/
theorem conversion_status_total_iff (apis : List String)
    (registry : String → PolyfillManifestData) :
    (classifyStatus (resolved_manifests apis registry) = "total" ↔
      ∀ api ∈ apis, api ∉ (["app.window", "app.runtime"] : List String) →
        (resolved_descriptor registry api).status = "total") ∧
    classifyStatus (resolved_manifests ["app.window", "app.runtime"] registry) =
      "total" := by
  constructor
  · rw [classifyStatus_eq_total_iff]
    constructor
    · intro hall api hapi hexempt
      by_cases hp : api ∈ POLYFILLS
      · have : (api, registry api) ∈ resolved_manifests apis registry := by
          simp only [resolved_manifests, List.mem_append, List.mem_map]
          exact Or.inl ⟨api, by simp [polyfillable_of, List.mem_filter, hapi, hp], rfl⟩
        rcases hall _ this with h | h
        · simpa [resolved_descriptor, hp] using h
        · exact absurd h hexempt
      · have : (api, polyfill_manifest_default api) ∈ resolved_manifests apis registry := by
          simp only [resolved_manifests, List.mem_append, List.mem_map]
          exact Or.inr ⟨api, by simp [not_polyfillable_of, List.mem_filter, hapi, hp], rfl⟩
        rcases hall _ this with h | h
        · simpa [resolved_descriptor, hp] using h
        · exact absurd h hexempt
    · intro hall am ham
      simp only [resolved_manifests, List.mem_append, List.mem_map] at ham
      rcases ham with ⟨api, hapi, rfl⟩ | ⟨api, hapi, rfl⟩
      · rw [polyfillable_of, List.mem_filter] at hapi
        by_cases hexempt : api ∈ (["app.window", "app.runtime"] : List String)
        · exact Or.inr hexempt
        · refine Or.inl ?_
          have := hall api hapi.1 hexempt
          simpa [resolved_descriptor, show api ∈ POLYFILLS by simpa using hapi.2] using this
      · rw [not_polyfillable_of, List.mem_filter] at hapi
        by_cases hexempt : api ∈ (["app.window", "app.runtime"] : List String)
        · exact Or.inr hexempt
        · refine Or.inl ?_
          have := hall api hapi.1 hexempt
          simpa [resolved_descriptor, show api ∉ POLYFILLS by simpa using hapi.2] using this
  · rfl

/-! ## C7: abort on an existing output directory -/

/-- C7: when the output directory already exists and the overwrite flag is
not set, `convert_app` aborts before any file operation: the conversion
ends in the caught-and-logged `OSError`, nothing is copied, and the whole
world — input directory contents and output directory alike — is returned
exactly as it was. -/
theorem convert_app_existing_output_aborts (env : Env) (world : World)
    (config : Config) (h : world.outputFiles.isSome = true) :
    convert_app env world config false =
      (world, .abortedLogged "Output directory already exists.") := by
  have hsetup : setup_output_dir world false = .error "Output directory already exists." := by
    unfold setup_output_dir
    rw [if_pos ⟨rfl, h⟩]
  unfold convert_app
  rw [hsetup]

/-- Witness for C7 at a concrete world whose output directory exists. -/
theorem convert_app_existing_output_aborts_witness :
    (({ inputFiles := ["manifest.json", "x.js"],
        outputFiles := some ["old.txt"] } : World).outputFiles.isSome = true) ∧
    convert_app
        { apis := [], registry := fun _ => polyfill_manifest_default "",
          manifestOk := true,
          run := fun _ => { stdout := "ok", exitCode := 0, added := [] } }
        { inputFiles := ["manifest.json", "x.js"], outputFiles := some ["old.txt"] }
        { boilerplate_dir := "caterpillar", report_dir := "report",
          start_url := "index.html" } false =
      ({ inputFiles := ["manifest.json", "x.js"], outputFiles := some ["old.txt"] },
        .abortedLogged "Output directory already exists.") :=
  ⟨rfl, convert_app_existing_output_aborts _ _ _ rfl⟩

/-! ## C1: the script-annotation pass is not idempotent -/

theorem insert_todos_length (matcher : String → Option String) :
    ∀ f : List String, (insert_todos_into_file matcher f).length =
      f.length + f.countP (fun l => (matcher l).isSome) := by
  intro f
  induction f with
  | nil => rfl
  | cons line rest ih =>
    rw [insert_todos_into_file]
    match hm : matcher line with
    | some api =>
      simp [ih, List.countP_cons, hm]
      omega
    | none =>
      simp [ih, List.countP_cons, hm]
      omega

theorem countP_insert_todos_ge (matcher : String → Option String) :
    ∀ f : List String, f.countP (fun l => (matcher l).isSome) ≤
      (insert_todos_into_file matcher f).countP (fun l => (matcher l).isSome) := by
  intro f
  induction f with
  | nil => exact Nat.le_refl _
  | cons line rest ih =>
    rw [insert_todos_into_file]
    match hm : matcher line with
    | some api =>
      simp only [List.countP_cons, hm, Option.isSome_some]
      have : rest.countP (fun l => (matcher l).isSome) ≤
          (todoFor api line :: insert_todos_into_file matcher rest).countP
            (fun l => (matcher l).isSome) := by
        refine le_trans ih ?_
        simp only [List.countP_cons]
        omega
      simp only [List.countP_cons] at this ⊢
      omega
    | none =>
      simp only [List.countP_cons, hm, Option.isSome_none]
      omega

/-- For any per-line matcher at all, a file containing one matched line is
re-annotated by a second pass: the pass re-scans the written output instead
of content-matching against the original source, so the matched line — still
present verbatim in the single-pass output — receives a second TODO. -/
theorem insert_todos_not_idempotent (matcher : String → Option String)
    (f : List String) (h : ∃ l ∈ f, (matcher l).isSome) :
    insert_todos_into_file matcher (insert_todos_into_file matcher f) ≠
      insert_todos_into_file matcher f := by
  intro heq
  have hlen := congrArg List.length heq
  rw [insert_todos_length, insert_todos_length] at hlen
  have hpos : 0 < f.countP (fun l => (matcher l).isSome) := by
    rw [List.countP_pos_iff]
    obtain ⟨l, hl, hsome⟩ := h
    exact ⟨l, hl, hsome⟩
  have hge := countP_insert_todos_ge matcher f
  omega

/-- C1 fails on the code: evaluating `insert_todos_into_file` at a one-line
script that calls a Chrome API, the single pass inserts one TODO comment,
and a second pass over that output inserts a second TODO for the same
original call-site line — the double-pass output differs from the
single-pass output. -/
theorem insert_todos_double_pass_adds_second_todo :
    insert_todos_into_file apiMemberUsed ["chrome.tts.speak(words);\n"] =
      ["// TODO(Caterpillar): Check usage of tts.speak.\n",
       "chrome.tts.speak(words);\n"] ∧
    insert_todos_into_file apiMemberUsed
        (insert_todos_into_file apiMemberUsed ["chrome.tts.speak(words);\n"]) =
      ["// TODO(Caterpillar): Check usage of tts.speak.\n",
       "// TODO(Caterpillar): Check usage of tts.speak.\n",
       "chrome.tts.speak(words);\n"] ∧
    insert_todos_into_file apiMemberUsed
        (insert_todos_into_file apiMemberUsed ["chrome.tts.speak(words);\n"]) ≠
      insert_todos_into_file apiMemberUsed ["chrome.tts.speak(words);\n"] := by
  refine ⟨by decide, by decide, by decide⟩

/-! ## Running the pipeline: stage lemmas -/

theorem required_dependency_paths_isSome {ds : List Dependency}
    (h : ∀ d ∈ ds, d.manager = "bower" ∨ d.manager = "npm") :
    ∃ ps, required_dependency_paths? ds = some ps := by
  induction ds with
  | nil => exact ⟨[], rfl⟩
  | cons d ds ih =>
    obtain ⟨ps, hps⟩ := ih (fun d' hd' => h d' (List.mem_cons_of_mem _ hd'))
    have hfolder : ∃ folder, DEPENDENCY_MANAGER_INSTALL_FOLDER d.manager = some folder := by
      rcases h d (List.mem_cons_self _ _) with hm | hm <;>
        simp [DEPENDENCY_MANAGER_INSTALL_FOLDER, hm]
    obtain ⟨folder, hf⟩ := hfolder
    refine ⟨pJoin (pJoin (pJoin ".." folder) d.name) d.path :: ps, ?_⟩
    simp [required_dependency_paths?, hf, hps]

theorem required_dependency_paths_none {ds : List Dependency}
    (h : ∃ d ∈ ds, DEPENDENCY_MANAGER_INSTALL_FOLDER d.manager = none) :
    required_dependency_paths? ds = none := by
  induction ds with
  | nil => simp at h
  | cons d ds ih =>
    obtain ⟨d', hd', hnone⟩ := h
    rcases List.mem_cons.mp hd' with rfl | hmemtail
    · simp [required_dependency_paths?, hnone]
    · cases hdm : DEPENDENCY_MANAGER_INSTALL_FOLDER d.manager with
      | none => simp [required_dependency_paths?, hdm]
      | some folder => simp [required_dependency_paths?, hdm, ih ⟨d', hmemtail, hnone⟩]

theorem install_dependencies_ok (run : Dependency → InstallRun) :
    ∀ (ds : List Dependency) (t : List String),
      (∀ d ∈ ds, d.manager = "bower" ∨ d.manager = "npm") →
      ∃ tree warns, install_dependencies run ds t = (tree, warns, none) ∧
        (∀ p, p ∈ tree ↔ p ∈ t ∨ ∃ d ∈ ds, p ∈ (run d).added) ∧
        (t.Nodup → tree.Nodup) ∧
        (∀ d ∈ ds, (run d).stdout = "" → installFailWarning d ∈ warns) := by
  intro ds
  induction ds with
  | nil =>
    intro t _
    exact ⟨t, [], rfl, by simp, fun h => h, by simp⟩
  | cons d ds ih =>
    intro t hmgr
    obtain ⟨tree, warns, heq, hmemt, hnodupt, hwarn⟩ :=
      ih (addFiles t (run d).added) (fun d' hd' => hmgr d' (List.mem_cons_of_mem _ hd'))
    have hrec : d.manager = "bower" ∨ d.manager = "npm" := hmgr d (List.mem_cons_self _ _)
    have hmem' : ∀ p, p ∈ tree ↔ p ∈ t ∨ ∃ d' ∈ d :: ds, p ∈ (run d').added := by
      intro p
      rw [hmemt p, mem_addFiles]
      simp only [List.mem_cons]
      constructor
      · rintro ((hp | hp) | ⟨d', hd', hp⟩)
        · exact Or.inl hp
        · exact Or.inr ⟨d, Or.inl rfl, hp⟩
        · exact Or.inr ⟨d', Or.inr hd', hp⟩
      · rintro (hp | ⟨d', (rfl | hd'), hp⟩)
        · exact Or.inl (Or.inl hp)
        · exact Or.inl (Or.inr hp)
        · exact Or.inr ⟨d', hd', hp⟩
    have hnodup' : t.Nodup → tree.Nodup := fun h => hnodupt (nodup_addFiles h)
    by_cases hout : (run d).stdout = ""
    · refine ⟨tree, installFailWarning d :: warns, ?_, hmem', hnodup', ?_⟩
      · simp [install_dependencies, install_dependency, hrec, hout, heq]
      · intro d' hd' hout'
        rcases List.mem_cons.mp hd' with rfl | hmemtail
        · exact List.mem_cons_self _ _
        · exact List.mem_cons_of_mem _ (hwarn d' hmemtail hout')
    · refine ⟨tree, warns, ?_, hmem', hnodup', ?_⟩
      · simp [install_dependencies, install_dependency, hrec, hout, heq]
      · intro d' hd' hout'
        rcases List.mem_cons.mp hd' with rfl | hmemtail
        · exact absurd hout' hout
        · exact hwarn d' hmemtail hout'

/-- The spec's description of the caching snapshot, for comparison with the
implementation: "the sorted set of relative paths present in the output
tree after dependency installation and code editing", namely the staged
input files minus the removed Chrome App manifest, the generated web
manifest and app info script, the static and polyfill scripts copied into
the boilerplate directory (the service-worker support scripts among them),
and every file materialized into the tree by dependency installation. -/
def specSnapshotFiles (env : Env) (world : World) (config : Config) : List String :=
  world.inputFiles.filter (fun p => ¬ p = CHROME_APP_MANIFEST_FILENAME) ++
    [WEB_MANIFEST_FILENAME, INFO_SCRIPT_NAME] ++
    (["caterpillar.js", REGISTER_SCRIPT_NAME, SW_STATIC_SCRIPT_NAME] ++
        polyfill_paths (polyfillable_of env.apis)).map
      (fun p => pJoin config.boilerplate_dir p) ++
    (convert_dependencies env).flatMap (fun d => (env.run d).added)

/-- Master run lemma: under the preconditions for a fatal-error-free run —
the output directory can be staged, every dependency manager is recognized,
the Chrome App manifest verifies and is present among the input files
(which, being a directory listing, has no duplicate paths) — `convert_app`
completes; its status is the classification of the resolved manifests, its
cached list is the tree at snapshot time sorted, the snapshot tree is
exactly the spec-described set, `sw.js` is written only after the snapshot,
and every dependency whose install produced empty stdout contributed a
warning. -/
theorem convert_app_run (env : Env) (world : World) (config : Config) (force : Bool)
    (hsetup : force = true ∨ world.outputFiles = none)
    (hmgr : ∀ d ∈ convert_dependencies env, d.manager = "bower" ∨ d.manager = "npm")
    (hok : env.manifestOk = true)
    (hcm : CHROME_APP_MANIFEST_FILENAME ∈ world.inputFiles)
    (hnodup : world.inputFiles.Nodup) :
    ∃ tree warns,
      convert_app env world config force =
        ({ world with outputFiles := some (addFile tree SW_SCRIPT_NAME) },
          .completed (classifyStatus (resolved_manifests env.apis env.registry))
            (List.insertionSort strLe tree)
            (notPolyfillableWarning (not_polyfillable_of env.apis) :: warns)) ∧
      (∀ p, p ∈ tree ↔ p ∈ specSnapshotFiles env world config) ∧
      tree.Nodup ∧
      (∀ d ∈ convert_dependencies env, (env.run d).stdout = "" →
        installFailWarning d ∈ warns) := by
  have hsetup' : setup_output_dir world force = .ok world.inputFiles := by
    unfold setup_output_dir
    rcases hsetup with rfl | hw
    · simp
    · simp [hw]
  obtain ⟨ps, hps⟩ := required_dependency_paths_isSome hmgr
  have h3 : CHROME_APP_MANIFEST_FILENAME ∈
      add_app_info (addFile world.inputFiles WEB_MANIFEST_FILENAME) := by
    rw [add_app_info, mem_addFile, mem_addFile]
    exact Or.inl (Or.inl hcm)
  have h3nodup : (add_app_info (addFile world.inputFiles WEB_MANIFEST_FILENAME)).Nodup :=
    nodup_addFile (nodup_addFile hnodup)
  have hclean : cleanup_output_dir
      (add_app_info (addFile world.inputFiles WEB_MANIFEST_FILENAME)) =
      .ok ((add_app_info (addFile world.inputFiles WEB_MANIFEST_FILENAME)).erase
        CHROME_APP_MANIFEST_FILENAME) := by
    unfold cleanup_output_dir
    rw [if_pos h3]
  obtain ⟨tree6, warns, hinst, hmem6, hnodup6, hwarn6⟩ :=
    install_dependencies_ok env.run (convert_dependencies env)
      (copy_static_code
        (["caterpillar.js", REGISTER_SCRIPT_NAME, SW_STATIC_SCRIPT_NAME] ++
          polyfill_paths (polyfillable_of env.apis))
        ((add_app_info (addFile world.inputFiles WEB_MANIFEST_FILENAME)).erase
          CHROME_APP_MANIFEST_FILENAME)
        config.boilerplate_dir)
      hmgr
  refine ⟨addFile (addFile tree6 (pJoin config.boilerplate_dir REGISTER_SCRIPT_NAME))
      (pJoin config.boilerplate_dir SW_STATIC_SCRIPT_NAME), warns, ?_, ?_, ?_, hwarn6⟩
  · simp only [convert_app, hsetup', hps, hok, Bool.true_eq_false, if_false, hclean,
      hinst, add_service_worker, generate_service_worker]
  · intro p
    have h4mem : ∀ q, q ∈ ((add_app_info (addFile world.inputFiles
        WEB_MANIFEST_FILENAME)).erase CHROME_APP_MANIFEST_FILENAME) ↔
        q ≠ CHROME_APP_MANIFEST_FILENAME ∧
          (q ∈ world.inputFiles ∨ q = WEB_MANIFEST_FILENAME ∨ q = INFO_SCRIPT_NAME) := by
      intro q
      rw [h3nodup.mem_erase_iff, add_app_info, mem_addFile, mem_addFile, or_assoc]
    rw [mem_addFile, mem_addFile, hmem6 p, copy_static_code, mem_addFiles, h4mem p]
    simp only [specSnapshotFiles, List.mem_append, List.mem_filter, List.mem_map,
      List.mem_flatMap, List.mem_cons, List.not_mem_nil, or_false, decide_not,
      decide_eq_true_eq, Bool.not_eq_true', decide_eq_false_iff_not]
    constructor
    · rintro ((((⟨hne, hin | rfl | rfl⟩ | hst) | hdep) | rfl) | rfl)
      · exact Or.inl (Or.inl (Or.inl ⟨hin, hne⟩))
      · exact Or.inl (Or.inl (Or.inr (Or.inl rfl)))
      · exact Or.inl (Or.inl (Or.inr (Or.inr rfl)))
      · exact Or.inl (Or.inr hst)
      · exact Or.inr hdep
      · exact Or.inl (Or.inr ⟨REGISTER_SCRIPT_NAME, Or.inl (Or.inr (Or.inl rfl)), rfl⟩)
      · exact Or.inl (Or.inr ⟨SW_STATIC_SCRIPT_NAME, Or.inl (Or.inr (Or.inr rfl)), rfl⟩)
    · rintro (((⟨hin, hne⟩ | rfl | rfl) | hst) | hdep)
      · exact Or.inl (Or.inl (Or.inl (Or.inl ⟨hne, Or.inl hin⟩)))
      · exact Or.inl (Or.inl (Or.inl (Or.inl ⟨by decide, Or.inr (Or.inl rfl)⟩)))
      · exact Or.inl (Or.inl (Or.inl (Or.inl ⟨by decide, Or.inr (Or.inr rfl)⟩)))
      · exact Or.inl (Or.inl (Or.inl (Or.inr hst)))
      · exact Or.inl (Or.inl (Or.inr hdep))
  · exact nodup_addFile (nodup_addFile (hnodup6 (nodup_addFiles (h3nodup.erase _))))

/-- The cached-file list carried by a completed outcome. -/
def ConvResult.cachedList : ConvResult → List String
  | .completed _ cached _ => cached
  | .abortedLogged _ => []
  | .uncaught _ => []

/-- Whether the outcome is a completed conversion. -/
def ConvResult.isCompleted : ConvResult → Bool
  | .completed _ _ _ => true
  | .abortedLogged _ => false
  | .uncaught _ => false

/-- Whether the outcome is a caught, logged fatal error. -/
def ConvResult.isAbortedLogged : ConvResult → Bool
  | .completed _ _ _ => false
  | .abortedLogged _ => true
  | .uncaught _ => false

/-! ## C2: the cached list is the sorted post-installation snapshot -/

/-- C2: on every fatal-error-free conversion, the cached-file list embedded
in the generated caching script is exactly the sorted, duplicate-free
enumeration of the files present in the output tree at snapshot time — the
spec-described set reached after code editing, static/polyfill copying and
dependency installation, so in particular files materialized during
installation are listed. -/
theorem convert_app_cached_list_is_final_snapshot (env : Env) (world : World)
    (config : Config) (force : Bool)
    (hsetup : force = true ∨ world.outputFiles = none)
    (hmgr : ∀ d ∈ convert_dependencies env, d.manager = "bower" ∨ d.manager = "npm")
    (hok : env.manifestOk = true)
    (hcm : CHROME_APP_MANIFEST_FILENAME ∈ world.inputFiles)
    (hnodup : world.inputFiles.Nodup) :
    ∃ w status cached warns,
      convert_app env world config force = (w, .completed status cached warns) ∧
      cached.Sorted strLe ∧ cached.Nodup ∧
      (∀ p, p ∈ cached ↔ p ∈ specSnapshotFiles env world config) := by
  obtain ⟨tree, warns, heq, hmem, hnodup', hwarn⟩ :=
    convert_app_run env world config force hsetup hmgr hok hcm hnodup
  refine ⟨_, _, _, _, heq, List.sorted_insertionSort strLe tree, ?_, ?_⟩
  · exact ((List.perm_insertionSort strLe tree).nodup_iff).mpr hnodup'
  · intro p
    rw [(List.perm_insertionSort strLe tree).mem_iff, hmem p]

/-- A conversion environment for exercising C2: one detected polyfillable
API whose polyfill has one npm dependency, and an installer that
materializes `z.js` into the output tree. -/
def snapshotEnv : Env where
  apis := ["tts"]
  registry := fun a =>
    if a = "tts" then
      { status := "total", dependencies := [⟨"oasis", "index.js", "npm"⟩] }
    else polyfill_manifest_default a
  manifestOk := true
  run := fun _ => { stdout := "installed", exitCode := 0, added := ["z.js"] }

/-- The input world for the C2 witness: `x.js` and `a/y.js` are present
before installation. -/
def snapshotWorld : World where
  inputFiles := ["manifest.json", "x.js", "a/y.js"]
  outputFiles := none

/-- The configuration used by the concrete pipeline runs. -/
def sampleConfig : Config where
  boilerplate_dir := "caterpillar"
  report_dir := "report"
  start_url := "index.html"

/-- Witness for C2 at the spec's example: a tree holding `x.js` and
`a/y.js` before installation gains `z.js` during installation, and the
cached list contains all three. -/
theorem convert_app_cached_list_is_final_snapshot_witness :
    (∃ w status cached warns,
      convert_app snapshotEnv snapshotWorld sampleConfig false =
        (w, .completed status cached warns) ∧
      cached.Sorted strLe ∧ cached.Nodup ∧
      (∀ p, p ∈ cached ↔ p ∈ specSnapshotFiles snapshotEnv snapshotWorld sampleConfig)) ∧
    "x.js" ∈ (convert_app snapshotEnv snapshotWorld sampleConfig false).2.cachedList ∧
    "a/y.js" ∈ (convert_app snapshotEnv snapshotWorld sampleConfig false).2.cachedList ∧
    "z.js" ∈ (convert_app snapshotEnv snapshotWorld sampleConfig false).2.cachedList :=
  ⟨convert_app_cached_list_is_final_snapshot snapshotEnv snapshotWorld sampleConfig false
      (Or.inr rfl) (by decide) rfl (by decide) (by decide),
    by decide, by decide, by decide⟩

/-! ## C5: empty install stdout is a non-fatal, warned failure -/

/-- C5: an install invocation that produces empty standard output is
classified as a failed installation whatever the exit code was; on the
pipeline, such a failure is recorded as a warning and the conversion still
completes — reaching the caching-script stage and computing a final
status. -/
theorem install_empty_stdout_warns_and_completes (env : Env) (world : World)
    (config : Config) (force : Bool)
    (hsetup : force = true ∨ world.outputFiles = none)
    (hmgr : ∀ d ∈ convert_dependencies env, d.manager = "bower" ∨ d.manager = "npm")
    (hok : env.manifestOk = true)
    (hcm : CHROME_APP_MANIFEST_FILENAME ∈ world.inputFiles)
    (hnodup : world.inputFiles.Nodup)
    (d : Dependency) (hd : d ∈ convert_dependencies env)
    (hempty : (env.run d).stdout = "") :
    (∀ r : InstallRun, r.stdout = "" →
      ∀ tree, (install_dependency r tree).2 = some "InstallationError") ∧
    ∃ w status cached warns,
      convert_app env world config force = (w, .completed status cached warns) ∧
      installFailWarning d ∈ warns := by
  refine ⟨fun r hr tree => by simp [install_dependency, hr], ?_⟩
  obtain ⟨tree, warns, heq, hmem, hnodup', hwarn⟩ :=
    convert_app_run env world config force hsetup hmgr hok hcm hnodup
  exact ⟨_, _, _, _, heq, List.mem_cons_of_mem _ (hwarn d hd hempty)⟩

/-- An environment whose only dependency install ends with empty standard
output despite a success exit code. -/
def silentInstallEnv : Env where
  apis := ["tts"]
  registry := fun a =>
    if a = "tts" then
      { status := "total", dependencies := [⟨"oasis", "index.js", "bower"⟩] }
    else polyfill_manifest_default a
  manifestOk := true
  run := fun _ => { stdout := "", exitCode := 0, added := [] }

/-- Witness for C5: a dependency whose install returns exit code 0 but
prints nothing is warned about, and the conversion still completes. -/
theorem install_empty_stdout_warns_and_completes_witness :
    (∀ r : InstallRun, r.stdout = "" →
      ∀ tree, (install_dependency r tree).2 = some "InstallationError") ∧
    ∃ w status cached warns,
      convert_app silentInstallEnv snapshotWorld sampleConfig false =
        (w, .completed status cached warns) ∧
      installFailWarning ⟨"oasis", "index.js", "bower"⟩ ∈ warns :=
  install_empty_stdout_warns_and_completes silentInstallEnv snapshotWorld sampleConfig
    false (Or.inr rfl) (by decide) rfl (by decide) (by decide)
    ⟨"oasis", "index.js", "bower"⟩ (by decide) rfl

/-! ## C6: removal of the Chrome App manifest is not best-effort -/

/-- Counterexample to C6: at a tree that does not hold the Chrome App
manifest, the removal stage raises (`os.remove` is unguarded), and on the
pipeline the resulting `OSError` is uncaught — the conversion does not
continue. -/
theorem cleanup_missing_manifest_raises :
    cleanup_output_dir ["index.html"] = .error "OSError" ∧
    (convert_app
        { apis := [], registry := fun _ => polyfill_manifest_default "",
          manifestOk := true,
          run := fun _ => { stdout := "ok", exitCode := 0, added := [] } }
        { inputFiles := ["index.html"], outputFiles := none }
        sampleConfig false).2 = .uncaught "OSError" := by
  refine ⟨rfl, by decide⟩

/-- C6 amended: removal of the Chrome App manifest is unconditional rather
than best-effort.  When the manifest is present in the staged tree it is
removed and the conversion completes; when it is absent, `os.remove` raises
an `OSError` that `convert_app` does not catch, aborting the conversion. -/
theorem cleanup_manifest_removal_unconditional (env : Env) (world : World)
    (config : Config) (force : Bool)
    (hsetup : force = true ∨ world.outputFiles = none)
    (hmgr : ∀ d ∈ convert_dependencies env, d.manager = "bower" ∨ d.manager = "npm")
    (hok : env.manifestOk = true)
    (hnodup : world.inputFiles.Nodup) :
    (CHROME_APP_MANIFEST_FILENAME ∈ world.inputFiles →
      ∃ w status cached warns,
        convert_app env world config force = (w, .completed status cached warns)) ∧
    (CHROME_APP_MANIFEST_FILENAME ∉ world.inputFiles →
      (convert_app env world config force).2 = .uncaught "OSError") ∧
    (∀ tree, CHROME_APP_MANIFEST_FILENAME ∉ tree →
      cleanup_output_dir tree = .error "OSError") := by
  refine ⟨?_, ?_, fun tree h => by simp [cleanup_output_dir, h]⟩
  · intro hcm
    obtain ⟨tree, warns, heq, -, -, -⟩ :=
      convert_app_run env world config force hsetup hmgr hok hcm hnodup
    exact ⟨_, _, _, _, heq⟩
  · intro hcm
    have hsetup' : setup_output_dir world force = .ok world.inputFiles := by
      unfold setup_output_dir
      rcases hsetup with rfl | hw
      · simp
      · simp [hw]
    obtain ⟨ps, hps⟩ := required_dependency_paths_isSome hmgr
    have h3 : CHROME_APP_MANIFEST_FILENAME ∉
        add_app_info (addFile world.inputFiles WEB_MANIFEST_FILENAME) := by
      rw [add_app_info, mem_addFile, mem_addFile]
      rintro ((h | h) | h)
      · exact hcm h
      · exact absurd h (by decide)
      · exact absurd h (by decide)
    have hclean : cleanup_output_dir
        (add_app_info (addFile world.inputFiles WEB_MANIFEST_FILENAME)) =
        .error "OSError" := by
      unfold cleanup_output_dir
      rw [if_neg h3]
    simp only [convert_app, hsetup', hps, hok, Bool.true_eq_false, if_false, hclean]

/-- Witness for the amended C6, exercising both branches: removal succeeds
and conversion completes when the manifest is present; the `OSError`
escapes when it is absent. -/
theorem cleanup_manifest_removal_unconditional_witness :
    ((CHROME_APP_MANIFEST_FILENAME ∈
        ({ inputFiles := ["manifest.json", "x.js"], outputFiles := none } : World).inputFiles →
      ∃ w status cached warns,
        convert_app snapshotEnv { inputFiles := ["manifest.json", "x.js"], outputFiles := none }
          sampleConfig false = (w, .completed status cached warns)) ∧
      (CHROME_APP_MANIFEST_FILENAME ∉
          ({ inputFiles := ["manifest.json", "x.js"], outputFiles := none } : World).inputFiles →
        (convert_app snapshotEnv
          { inputFiles := ["manifest.json", "x.js"], outputFiles := none }
          sampleConfig false).2 = .uncaught "OSError") ∧
      (∀ tree, CHROME_APP_MANIFEST_FILENAME ∉ tree →
        cleanup_output_dir tree = .error "OSError")) ∧
    ((convert_app snapshotEnv { inputFiles := ["x.js"], outputFiles := none }
        sampleConfig false).2 = .uncaught "OSError") :=
  ⟨cleanup_manifest_removal_unconditional snapshotEnv
      { inputFiles := ["manifest.json", "x.js"], outputFiles := none } sampleConfig false
      (Or.inr rfl) (by decide) rfl (by decide),
    (cleanup_manifest_removal_unconditional snapshotEnv
      { inputFiles := ["x.js"], outputFiles := none } sampleConfig false
      (Or.inr rfl) (by decide) rfl (by decide)).2.1 (by decide)⟩

/-! ## C8: an unrecognized dependency manager -/

/-- An environment with one detected polyfillable API whose polyfill
declares a dependency managed by `pip` — a manager the converter does not
recognize. -/
def pipDependencyEnv : Env where
  apis := ["tts"]
  registry := fun a =>
    if a = "tts" then
      { status := "total", dependencies := [⟨"serial-helper", "lib.js", "pip"⟩] }
    else polyfill_manifest_default a
  manifestOk := true
  run := fun _ => { stdout := "ok", exitCode := 0, added := [] }

/-- Counterexample to C8: with a dependency whose manager is `pip`, the
conversion does abort, but through an uncaught `KeyError` raised while
building the dependency paths — not through a logged fatal error as the
claim states. -/
theorem unrecognized_manager_uncaught_keyerror :
    (convert_app pipDependencyEnv
        { inputFiles := ["manifest.json", "x.js"], outputFiles := none }
        sampleConfig false).2 = .uncaught "KeyError" ∧
    (convert_app pipDependencyEnv
        { inputFiles := ["manifest.json", "x.js"], outputFiles := none }
        sampleConfig false).2.isAbortedLogged = false := by
  refine ⟨by decide, by decide⟩

/-- C8 amended: a dependency with an unrecognized manager is fatal and
unrecoverable and aborts the whole conversion, but via an uncaught
`KeyError` raised while the dependency paths are built — before any
installation and without a logged error; the `ValueError` path of
`install_dependencies` (which `convert_app` would catch and log) is
distinct from a per-dependency installation failure, stopping the loop
fatally instead of warning. -/
theorem unrecognized_manager_fatal_uncaught (env : Env) (world : World)
    (config : Config) (force : Bool)
    (hsetup : force = true ∨ world.outputFiles = none)
    (d : Dependency) (hd : d ∈ convert_dependencies env)
    (hbad : DEPENDENCY_MANAGER_INSTALL_FOLDER d.manager = none) :
    (convert_app env world config force).2 = .uncaught "KeyError" ∧
    (∀ tree, install_dependencies env.run [d] tree =
      (tree, [], some (invalidManagerMsg d.manager))) := by
  have h1 : d.manager ≠ "bower" := fun h => by
    rw [DEPENDENCY_MANAGER_INSTALL_FOLDER, if_pos h] at hbad
    exact Option.noConfusion hbad
  have h2 : d.manager ≠ "npm" := fun h => by
    rw [DEPENDENCY_MANAGER_INSTALL_FOLDER, if_neg (h ▸ by decide), if_pos h] at hbad
    exact Option.noConfusion hbad
  constructor
  · have hsetup' : setup_output_dir world force = .ok world.inputFiles := by
      unfold setup_output_dir
      rcases hsetup with rfl | hw
      · simp
      · simp [hw]
    have hrdp : required_dependency_paths? (convert_dependencies env) = none :=
      required_dependency_paths_none ⟨d, hd, hbad⟩
    simp only [convert_app, hsetup', hrdp]
  · intro tree
    simp [install_dependencies, h1, h2]

/-- Witness for the amended C8: a concrete `pip`-managed dependency ends
the conversion with the uncaught `KeyError`, and `install_dependencies`
alone raises the fatal `ValueError` for it. -/
theorem unrecognized_manager_fatal_uncaught_witness :
    ((convert_app pipDependencyEnv
        { inputFiles := ["manifest.json"], outputFiles := none }
        sampleConfig false).2 = .uncaught "KeyError") ∧
    (∀ tree,
      install_dependencies pipDependencyEnv.run
        [⟨"serial-helper", "lib.js", "pip"⟩] tree =
      (tree, [], some (invalidManagerMsg "pip"))) :=
  unrecognized_manager_fatal_uncaught pipDependencyEnv
    { inputFiles := ["manifest.json"], outputFiles := none } sampleConfig false
    (Or.inr rfl) ⟨"serial-helper", "lib.js", "pip"⟩ (by decide) (by decide)

/-! ## C10: the caching script's own filename and the cached list -/

/-- Counterexample to C10: an input app that already ships a file named
`sw.js` puts that name into the snapshot, so the generated caching script's
cached list does contain the caching script's own filename. -/
theorem cached_list_contains_sw_when_preexisting :
    (convert_app
        { apis := [], registry := fun _ => polyfill_manifest_default "",
          manifestOk := true,
          run := fun _ => { stdout := "ok", exitCode := 0, added := [] } }
        { inputFiles := ["manifest.json", "sw.js", "index.html"], outputFiles := none }
        sampleConfig false).2.isCompleted = true ∧
    SW_SCRIPT_NAME ∈ (convert_app
        { apis := [], registry := fun _ => polyfill_manifest_default "",
          manifestOk := true,
          run := fun _ => { stdout := "ok", exitCode := 0, added := [] } }
        { inputFiles := ["manifest.json", "sw.js", "index.html"], outputFiles := none }
        sampleConfig false).2.cachedList := by
  refine ⟨by decide, by decide⟩

/-- A joined path under a non-empty directory contains a slash, so it is
never the bare service-worker filename. -/
theorem pJoin_ne_sw {b x : String} (hb : b ≠ "") : pJoin b x ≠ SW_SCRIPT_NAME := by
  have hmem : '/' ∈ (pJoin b x).data := by
    rw [pJoin, if_neg hb, String.data_append, String.data_append]
    simp
  intro h
  rw [h] at hmem
  exact absurd hmem (by decide)

/-- C10 amended: the snapshot is taken before the caching script is written
to the output root, so the write itself never puts `sw.js` into the cached
list: whenever no file named `sw.js` pre-exists in the input app and no
dependency install materializes one (and the boilerplate directory is a
real subdirectory), the cached list omits `sw.js` even though the final
output tree contains it. -/
theorem cached_list_excludes_sw_unless_preexisting (env : Env) (world : World)
    (config : Config) (force : Bool)
    (hsetup : force = true ∨ world.outputFiles = none)
    (hmgr : ∀ d ∈ convert_dependencies env, d.manager = "bower" ∨ d.manager = "npm")
    (hok : env.manifestOk = true)
    (hcm : CHROME_APP_MANIFEST_FILENAME ∈ world.inputFiles)
    (hnodup : world.inputFiles.Nodup)
    (hswin : SW_SCRIPT_NAME ∉ world.inputFiles)
    (hswadd : ∀ d ∈ convert_dependencies env, SW_SCRIPT_NAME ∉ (env.run d).added)
    (hbp : config.boilerplate_dir ≠ "") :
    ∃ w status cached warns,
      convert_app env world config force = (w, .completed status cached warns) ∧
      SW_SCRIPT_NAME ∉ cached ∧
      ∃ finalTree, w.outputFiles = some finalTree ∧ SW_SCRIPT_NAME ∈ finalTree := by
  obtain ⟨tree, warns, heq, hmem, hnodup', hwarn⟩ :=
    convert_app_run env world config force hsetup hmgr hok hcm hnodup
  refine ⟨_, _, _, _, heq, ?_, addFile tree SW_SCRIPT_NAME, rfl, ?_⟩
  · rw [(List.perm_insertionSort strLe tree).mem_iff, hmem]
    simp only [specSnapshotFiles, List.mem_append, List.mem_filter, List.mem_map,
      List.mem_flatMap, decide_not, decide_eq_true_eq, Bool.not_eq_true',
      decide_eq_false_iff_not]
    rintro ((((⟨hin, -⟩ | hgen) | ⟨x, -, hx⟩) | ⟨d, hd, hadd⟩))
    · exact hswin hin
    · rcases List.mem_cons.mp hgen with h | h
      · exact absurd h (by decide)
      · rw [List.mem_singleton] at h
        exact absurd h (by decide)
    · exact pJoin_ne_sw hbp hx
    · exact hswadd d hd hadd
  · exact mem_addFile.mpr (Or.inr rfl)

/-- Witness for the amended C10: with no pre-existing `sw.js`, the
completed run's cached list omits `sw.js` while the final tree has it. -/
theorem cached_list_excludes_sw_unless_preexisting_witness :
    ∃ w status cached warns,
      convert_app snapshotEnv snapshotWorld sampleConfig false =
        (w, .completed status cached warns) ∧
      SW_SCRIPT_NAME ∉ cached ∧
      ∃ finalTree, w.outputFiles = some finalTree ∧ SW_SCRIPT_NAME ∈ finalTree :=
  cached_list_excludes_sw_unless_preexisting snapshotEnv snapshotWorld sampleConfig false
    (Or.inr rfl) (by decide) rfl (by decide) (by decide) (by decide) (by decide)
    (by decide)

end Caterpillar
